import Mathlib

/-!
Verification development for the user-directory service
(Express + Mongoose + Redis caching layer).

The definitions below are a shallow embedding of the JavaScript sources:

* `src/src/config/mongodb.js` (the Redis section): `checkBloomFilter`,
  `addToBloomFilter`, `cacheGet` / `cacheSet` / `cacheDelete`, `CACHE_KEYS`.
* `src/src/models/user.model.js`: the user schema, the `post-save` /
  `post-findOneAndDelete` hooks, `toJSON`, `findByUsername`, `findByEmail`.
* `src/src/routes/user.routes.js`: `generateCacheKey`, the `GET /all`
  (list-paginated) handler, the `GET /validate/:username` availability
  handler, the `PATCH /:username` update handler and the
  `DELETE /:username` handler.
* `src/src/routes/auth.routes.js`: the `POST /signup` creation core.

JavaScript numbers resulting from `parseInt` are modelled as `Option Int`
with `none` playing the role of `NaN` (`Math.max` / `Math.min` propagate
`NaN`, which `jsMax` / `jsMin` mirror).  The Redis key/value store is an
association list from string keys to cached values; TTLs are carried but
expiry is not modelled (all claims are about the state immediately after
an operation completes).  The Bloom filter is modelled as the exact set of
added keys: `BF.EXISTS` of an added key is always 1 (no false negatives),
and no claim depends on the presence of false positives.
-/

namespace UserDirectory

/-- A record in the authoritative store (a `User` document).
`passwordHash` is the stored (bcrypt-hashed) password.  `id` models the
Mongo `_id`; `createdAt` models the creation timestamp. -/
structure StoredUser where
  id : Nat
  email : String
  passwordHash : String
  username : String
  fullName : String
  role : String
  createdAt : Nat
deriving DecidableEq, Repr

/-- Model of bcrypt hashing from the `pre-save` hook.  The claims never
inspect hash values, only whether the password field is present in a
serialization, so any injective tagging suffices. -/
def hashPassword (p : String) : String := "bcrypt:" ++ p

/-- `userSchema.methods.toObject` (Mongoose default): the document as a
plain field/value association list, password included. -/
def toObjectFields (u : StoredUser) : List (String × String) :=
  [("_id", toString u.id),
   ("email", u.email),
   ("password", u.passwordHash),
   ("username", u.username),
   ("fullName", u.fullName),
   ("role", u.role),
   ("createdAt", toString u.createdAt)]

/-- `userSchema.methods.toJSON` from `user.model.js`:
`const obj = this.toObject(); delete obj.password; return obj;`. -/
def toJSONFields (u : StoredUser) : List (String × String) :=
  (toObjectFields u).filter (fun p => !(p.1 = "password"))

/-- Field lookup in a serialized document (JS property access). -/
def fieldLookup (fields : List (String × String)) (k : String) : Option String :=
  (fields.find? (fun p => p.1 = k)).map (fun p => p.2)

/-- Rebuild a document from a cached JSON object: `new this(cached)` in
`findByUsername`.  Absent properties (notably `password`, which `toJSON`
deleted before caching) come back as `undefined`, modelled by the
defaults. -/
def fromCached (fields : List (String × String)) : StoredUser :=
  { id := ((fieldLookup fields "_id").bind String.toNat?).getD 0,
    email := (fieldLookup fields "email").getD "",
    passwordHash := (fieldLookup fields "password").getD "",
    username := (fieldLookup fields "username").getD "",
    fullName := (fieldLookup fields "fullName").getD "",
    role := (fieldLookup fields "role").getD "",
    createdAt := ((fieldLookup fields "createdAt").bind String.toNat?).getD 0 }

/-! ## JavaScript numerics: `parseInt`, `Math.max`, `Math.min` with NaN -/

/-- Leading decimal digits of a character list. -/
def takeDigits : List Char → List Char
  | [] => []
  | c :: cs => if c.isDigit then c :: takeDigits cs else []

/-- JS `parseInt(s)` (decimal): skip leading whitespace, optional sign,
read leading digits; `NaN` (here `none`) when no digit is found. -/
def parseIntJS (s : String) : Option Int :=
  let cs := s.data.dropWhile (fun c => c = ' ' || c = '\t' || c = '\n')
  let (neg, rest) :=
    match cs with
    | '-' :: t => (true, t)
    | '+' :: t => (false, t)
    | t => (false, t)
  let ds := takeDigits rest
  if ds.isEmpty then none
  else
    let n : Nat := ds.foldl (fun acc c => acc * 10 + (c.toNat - 48)) 0
    some (if neg then -(n : Int) else (n : Int))

/-- `Math.max` on JS numbers: NaN-propagating. -/
def jsMax (a b : Option Int) : Option Int :=
  match a, b with
  | some x, some y => some (max x y)
  | _, _ => none

/-- `Math.min` on JS numbers: NaN-propagating. -/
def jsMin (a b : Option Int) : Option Int :=
  match a, b with
  | some x, some y => some (min x y)
  | _, _ => none

/-! ## Raw list queries, normalization and the cache key -/

/-- The raw `req.query` of `GET /all`: each parameter is an optional raw
string (absent query parameters are `undefined`, i.e. `none`). -/
structure RawQuery where
  page : Option String := none
  limit : Option String := none
  sort : Option String := none
  order : Option String := none
  role : Option String := none
  search : Option String := none
deriving DecidableEq, Repr

/-- JS `x || d` for an optional string: falsy (`undefined` or `""`)
falls through to the default. -/
def orFalsy (o : Option String) (d : String) : String :=
  match o with
  | none => d
  | some s => if s = "" then d else s

/-- JS truthiness of an optional string (used for `if (role)` and
`if (search)` when building the store query). -/
def truthyOpt (o : Option String) : Option String :=
  match o with
  | none => none
  | some s => if s = "" then none else some s

/-- `generateCacheKey` from `user.routes.js`: destructures `req.query`
with defaults `page = 1`, `limit = 20`, `sort = "createdAt"`,
`order = "desc"` and concatenates the RAW values
`ALL_USERS:page:limit:sort:order:(role || "all"):(search || "none")`.
Note that destructuring defaults apply only to absent (`undefined`)
properties, while `||` also replaces the empty string. -/
def generateCacheKey (q : RawQuery) : String :=
  "all_users" ++ ":" ++ (q.page.getD "1") ++ ":" ++ (q.limit.getD "20")
    ++ ":" ++ (q.sort.getD "createdAt") ++ ":" ++ (q.order.getD "desc")
    ++ ":" ++ orFalsy q.role "all" ++ ":" ++ orFalsy q.search "none"

/-- `CACHE_KEYS.USER(username)` from the Redis config. -/
def userKey (username : String) : String := "user:" ++ username

/-- `CACHE_KEYS.ALL_USERS`. -/
def allUsersKey : String := "all_users"

/-- `const validLimit = Math.min(Math.max(1, parseInt(limit)), 100)` with
the destructuring default `limit = 20`.  `none` is `NaN`. -/
def validLimit (q : RawQuery) : Option Int :=
  jsMin (jsMax (some 1) (parseIntJS (q.limit.getD "20"))) (some 100)

/-- `const validPage = Math.max(1, parseInt(page))` with default `page = 1`. -/
def validPage (q : RawQuery) : Option Int :=
  jsMax (some 1) (parseIntJS (q.page.getD "1"))

/-- `["createdAt","username","email"].includes(sort) ? sort : "createdAt"`. -/
def validSort (q : RawQuery) : String :=
  let s := q.sort.getD "createdAt"
  if s = "createdAt" || s = "username" || s = "email" then s else "createdAt"

/-- `["asc","desc"].includes(order) ? order : "desc"`. -/
def validOrder (q : RawQuery) : String :=
  let o := q.order.getD "desc"
  if o = "asc" || o = "desc" then o else "desc"

/-- The normalized list-query signature
`{page, limit, sort, order, role, search}`: the values the handler
actually uses for the store query (`validPage`, `validLimit`,
`validSort`, `validOrder`, and the truthiness-filtered `role` / `search`
used when building the Mongo filter). -/
structure NormQuery where
  page : Option Int
  limit : Option Int
  sort : String
  order : String
  role : Option String
  search : Option String
deriving DecidableEq, Repr

/-- Normalization of a raw list query, as performed by the `GET /all`
handler. -/
def normalizeQuery (q : RawQuery) : NormQuery :=
  { page := validPage q,
    limit := validLimit q,
    sort := validSort q,
    order := validOrder q,
    role := truthyOpt q.role,
    search := truthyOpt q.search }

/-- The raw defaulted field tuple that `generateCacheKey` actually
concatenates. -/
def rawKeyFields (q : RawQuery) : String × String × String × String × String × String :=
  (q.page.getD "1", q.limit.getD "20", q.sort.getD "createdAt",
   q.order.getD "desc", orFalsy q.role "all", orFalsy q.search "none")

/-! ## String helpers (kernel-computable stand-ins for JS string ops) -/

/-- ASCII lower-casing of one character (JS `toLowerCase` restricted to
the ASCII usernames/emails this schema admits). -/
def lowerChar (c : Char) : Char :=
  if 'A' ≤ c && c ≤ 'Z' then Char.ofNat (c.toNat + 32) else c

/-- Lower-casing of a string. -/
def lowerStr (s : String) : String := String.mk (s.data.map lowerChar)

/-- Is `pre` a prefix of `l`? -/
def listStartsWith : List Char → List Char → Bool
  | [], _ => true
  | _ :: _, [] => false
  | a :: as, b :: bs => a = b && listStartsWith as bs

/-- Does `hay` contain `needle` as a contiguous substring? -/
def containsSub (needle : List Char) : List Char → Bool
  | [] => listStartsWith needle []
  | c :: cs => listStartsWith needle (c :: cs) || containsSub needle cs

/-- Case-insensitive substring match: the `$regex: search, $options: "i"`
filter of the list handler. -/
def containsCI (hay needle : String) : Bool :=
  containsSub (lowerStr needle).data (lowerStr hay).data

/-! ## The Redis key/value cache and the Bloom filter -/

/-- Metadata block of a cached list composite (`result.metadata`).
`page`, `limit`, `totalPages` are JS numbers (`none` = NaN). -/
structure ListMetadata where
  page : Option Int
  limit : Option Int
  total : Nat
  totalPages : Option Int
deriving DecidableEq, Repr

/-- A value stored in Redis: either a single serialized record
(`user:<name>` keys) or a serialized list composite (metadata plus the
serialized page of users). -/
inductive CacheVal where
  | userVal (fields : List (String × String))
  | listVal (meta : ListMetadata) (users : List (List (String × String)))
deriving DecidableEq, Repr

/-- The Redis keyspace: an association list from keys to values. -/
abbrev Cache := List (String × CacheVal)

/-- `cacheSet` (Redis `SET`): overwrite semantics, last write wins.
The TTL argument of the source is not modelled (no claim involves
expiry). -/
def cacheSet (c : Cache) (k : String) (v : CacheVal) : Cache :=
  (k, v) :: c.filter (fun kv => !(kv.1 = k))

/-- `cacheGet` (Redis `GET` + `JSON.parse`): `none` when absent. -/
def cacheGet (c : Cache) (k : String) : Option CacheVal :=
  (c.find? (fun kv => kv.1 = k)).map (fun kv => kv.2)

/-- `cacheDelete` (Redis `DEL key`): removes exactly the given key. -/
def cacheDelete (c : Cache) (k : String) : Cache :=
  c.filter (fun kv => !(kv.1 = k))

/-- `addToBloomFilter` (`BF.ADD usernames u`), modelled as exact set
insertion; `BF.ADD` is idempotent. -/
def addToBloom (bloom : List String) (u : String) : List String :=
  if bloom.contains u then bloom else u :: bloom

/-- `checkBloomFilter` from the Redis config:
`BF.EXISTS usernames u === 1` when the backend is reachable; the `catch`
branch RETURNS FALSE when the backend is unreachable. -/
def checkBloomFilter (backendUp : Bool) (bloom : List String) (u : String) : Bool :=
  if backendUp then bloom.contains u else false

/-! ## Directory state and operations -/

/-- The state the directory operations act on: the authoritative store,
the Redis cache and the username Bloom filter. -/
structure DirState where
  store : List StoredUser
  cache : Cache
  bloom : List String
deriving DecidableEq, Repr

/-- Result of `User.findByUsername`: the found document (if any), whether
it was reconstructed from the cache (`new this(cached)` yields a document
with `isNew = true`), the post-call state (a store hit populates the
cache) and the number of authoritative-store queries issued. -/
structure FindResult where
  doc : Option StoredUser
  fromCache : Bool
  state : DirState
  storeCalls : Nat

/-- `userSchema.statics.findByUsername`: cache first (`user:<name>` key);
on a cache hit return `new this(cached)` (no store access, document
reconstructed from the password-less JSON); on a miss query the store and
populate the cache when found. -/
def findByUsername (st : DirState) (u : String) : FindResult :=
  match cacheGet st.cache (userKey u) with
  | some (CacheVal.userVal fields) => ⟨some (fromCached fields), true, st, 0⟩
  | some (CacheVal.listVal _ _) =>
      -- unreachable under the key discipline (`user:` keys only ever hold
      -- single records); a foreign JSON shape would still be truthy and be
      -- fed to `new this(cached)`, giving a document with no fields set
      ⟨some (fromCached []), true, st, 0⟩
  | none =>
    match st.store.find? (fun r => r.username = u) with
    | some doc =>
        ⟨some doc, false,
         { st with cache := cacheSet st.cache (userKey u) (CacheVal.userVal (toJSONFields doc)) },
         1⟩
    | none => ⟨none, false, st, 1⟩

/-- `userSchema.statics.findByEmail`: a full store scan compared
case-insensitively; no cache tier, no state change. -/
def findByEmail (store : List StoredUser) (email : String) : Option StoredUser :=
  store.find? (fun r => lowerStr r.email = lowerStr email)

/-- The `post-save` hook: add the (current) username to the Bloom
filter, write the password-less JSON through to the record cache, and
delete the literal `all_users` key. -/
def postSave (st : DirState) (doc : StoredUser) : DirState :=
  { st with
    bloom := addToBloom st.bloom doc.username,
    cache := cacheDelete
      (cacheSet st.cache (userKey doc.username) (CacheVal.userVal (toJSONFields doc)))
      allUsersKey }

/-- Smallest id/timestamp not yet used by the store (models `_id`
assignment and the `createdAt` timestamp at insertion). -/
def freshId (store : List StoredUser) : Nat :=
  (store.map (fun r => r.id)).foldr max 0 + 1

/-! ## ListPaginated (`GET /all`) -/

/-- The Mongo filter built by the list handler: exact `role` match when
`role` is truthy, and a case-insensitive OR-substring match over
username/email/fullName when `search` is truthy. -/
def matchesListQuery (q : RawQuery) (r : StoredUser) : Bool :=
  (match truthyOpt q.role with
   | some ro => r.role = ro
   | none => true)
  &&
  (match truthyOpt q.search with
   | some s => containsCI r.username s || containsCI r.email s || containsCI r.fullName s
   | none => true)

/-- Ascending comparison on the sort field (`createdAt` for any field
other than `username` / `email`, mirroring `validSort`). -/
def userLe (sortField : String) (a b : StoredUser) : Bool :=
  if sortField = "username" then a.username ≤ b.username
  else if sortField = "email" then a.email ≤ b.email
  else a.createdAt ≤ b.createdAt

/-- Insertion into a `le`-sorted list. -/
def insertSorted (le : StoredUser → StoredUser → Bool) (x : StoredUser) :
    List StoredUser → List StoredUser
  | [] => [x]
  | y :: ys => if le x y then x :: y :: ys else y :: insertSorted le x ys

/-- Stable insertion sort. -/
def sortByLe (le : StoredUser → StoredUser → Bool) : List StoredUser → List StoredUser
  | [] => []
  | x :: xs => insertSorted le x (sortByLe le xs)

/-- `.sort({ [validSort]: validOrder === "desc" ? -1 : 1 })`. -/
def sortUsers (sortField order : String) (users : List StoredUser) : List StoredUser :=
  let s := sortByLe (userLe sortField) users
  if order = "desc" then s.reverse else s

/-- `Math.ceil(total / validLimit)` for a clamped (positive) limit. -/
def ceilTotalPages (total : Nat) (l : Int) : Int :=
  (((total : Int) + l - 1) / l)

/-- Outcome of the `GET /all` handler body. -/
inductive ListOutcome where
  | ok (result : CacheVal)
  /-- `validPage` or `validLimit` is NaN: the store rejects `skip(NaN)` /
  `limit(NaN)` and the handler falls into `next(error)`. -/
  | storeError
deriving DecidableEq, Repr

/-- The `GET /all` handler: build the cache key from the RAW query,
return a cached composite verbatim on a hit; on a miss filter, sort and
slice the store, compose `metadata` from the clamped values, cache the
composite under the raw-query key (TTL 300s, not modelled) and return it.
Also returns the number of authoritative-store queries issued
(`find` + `countDocuments` = 2 on a miss, 0 on a hit). -/
def listPaginated (st : DirState) (q : RawQuery) : ListOutcome × DirState × Nat :=
  let key := generateCacheKey q
  match cacheGet st.cache key with
  | some v => (ListOutcome.ok v, st, 0)
  | none =>
    match validPage q, validLimit q with
    | some p, some l =>
        let filtered := st.store.filter (matchesListQuery q)
        let sorted := sortUsers (validSort q) (validOrder q) filtered
        let users := (sorted.drop ((p - 1) * l).toNat).take l.toNat
        let total := filtered.length
        let meta : ListMetadata :=
          { page := some p, limit := some l, total := total,
            totalPages := some (ceilTotalPages total l) }
        let result := CacheVal.listVal meta (users.map toJSONFields)
        (ListOutcome.ok result, { st with cache := cacheSet st.cache key result }, 2)
    | _, _ => (ListOutcome.storeError, st, 1)

/-! ## CheckAvailability (`GET /validate/:username`) -/

/-- The availability handler: Bloom filter first; a negative filter
answer short-circuits to `available = true` with no store access;
otherwise `available = !exists` via `findByUsername`.  Returns
(available, post-state, store queries issued). -/
def checkAvailability (backendUp : Bool) (st : DirState) (u : String) :
    Bool × DirState × Nat :=
  if checkBloomFilter backendUp st.bloom u then
    let r := findByUsername st u
    (r.doc.isNone, r.state, r.storeCalls)
  else
    (true, st, 0)

/-! ## CreateRecord (`POST /signup` core) -/

/-- Outcome of record creation. -/
inductive CreateOutcome where
  | dupEmail
  | dupUsername
  | created (doc : StoredUser)
deriving DecidableEq, Repr

/-- The signup core: email uniqueness via `findByEmail` (store scan),
username uniqueness via `findByUsername` (cache-assisted, may populate
the cache on a store hit), then `new User(...)` + `save()` — the
`pre-save` hook hashes the password and the schema lower-cases the
email, insertion assigns id/timestamps, and the `post-save` hook runs
(`postSave`).  Role derivation (first-user-admin / admin-token logic)
happens upstream of persistence and is passed in as the resolved role. -/
def createRecord (st : DirState) (email password username fullName role : String) :
    CreateOutcome × DirState :=
  match findByEmail st.store email with
  | some _ => (CreateOutcome.dupEmail, st)
  | none =>
    let r := findByUsername st username
    match r.doc with
    | some _ => (CreateOutcome.dupUsername, r.state)
    | none =>
      let doc : StoredUser :=
        { id := freshId r.state.store,
          email := lowerStr email,
          passwordHash := hashPassword password,
          username := username,
          fullName := fullName,
          role := role,
          createdAt := freshId r.state.store }
      let st1 := { r.state with store := r.state.store ++ [doc] }
      (CreateOutcome.created doc, postSave st1 doc)

/-! ## UpdateRecord (`PATCH /:username` core) -/

/-- The update payload after `allowedFields` filtering: each allowed
field is either absent or carries the raw new value. -/
structure UpdateFields where
  email : Option String := none
  password : Option String := none
  fullName : Option String := none
  username : Option String := none
  role : Option String := none
deriving DecidableEq, Repr

/-- `Object.keys(filteredUpdates).length === 0`. -/
def hasNoFields (f : UpdateFields) : Bool :=
  f.email.isNone && f.password.isNone && f.fullName.isNone
    && f.username.isNone && f.role.isNone

/-- Applying the provided fields to the resolved document, composed with
what `save()` then does to them (schema lower-cases email, the
`pre-save` hook hashes a modified password). -/
def applyUpdates (doc : StoredUser) (f : UpdateFields) : StoredUser :=
  { doc with
    email := (f.email.map lowerStr).getD doc.email,
    passwordHash := (f.password.map hashPassword).getD doc.passwordHash,
    fullName := f.fullName.getD doc.fullName,
    username := f.username.getD doc.username,
    role := f.role.getD doc.role }

/-- Outcome of the update handler. -/
inductive UpdateOutcome where
  | noFields
  | notFound
  | dupEmail
  | dupUsername
  | notAdmin
  /-- The resolved document came from the cache: `new this(cached)` has
  `isNew = true`, so `save()` attempts an insert and the store rejects
  the duplicate `_id`; the `post-save` hook does not run. -/
  | saveError
  | ok (response : List (String × String))
deriving DecidableEq, Repr

/-- Persisting an update of an existing (store-resolved) document:
replace the record with the same id, then run the `post-save` hook. -/
def saveExisting (st : DirState) (doc : StoredUser) : DirState :=
  postSave
    { st with store := st.store.map (fun r => if r.id = doc.id then doc else r) }
    doc

/-- The `PATCH /:username` handler core (validation middleware aside):
reject an empty update; resolve via the cache-assisted `findByUsername`;
check email uniqueness against the store when the email changes; check
username uniqueness via `findByUsername` when the username parameter
differs; role changes require an admin requester; then apply the fields
and `save()`.  The response is `user.toJSON()` with `password` deleted
a second time. -/
def updateRecord (requesterIsAdmin : Bool) (st : DirState) (username : String)
    (f : UpdateFields) : UpdateOutcome × DirState :=
  if hasNoFields f then (UpdateOutcome.noFields, st)
  else
    let r := findByUsername st username
    match r.doc with
    | none => (UpdateOutcome.notFound, r.state)
    | some user =>
      let emailConflict :=
        match truthyOpt f.email with
        | some e => if e = user.email then false else (findByEmail r.state.store e).isSome
        | none => false
      if emailConflict then (UpdateOutcome.dupEmail, r.state)
      else
        let (userConflict, st2) :=
          match truthyOpt f.username with
          | some v =>
              if v = username then (false, r.state)
              else
                let r2 := findByUsername r.state v
                (r2.doc.isSome, r2.state)
          | none => (false, r.state)
        if userConflict then (UpdateOutcome.dupUsername, st2)
        else if f.role.isSome && !requesterIsAdmin then (UpdateOutcome.notAdmin, st2)
        else if r.fromCache then (UpdateOutcome.saveError, st2)
        else
          let updated := applyUpdates user f
          let response := (toJSONFields updated).filter (fun p => !(p.1 = "password"))
          (UpdateOutcome.ok response, saveExisting st2 updated)

/-! ## DeleteRecord (`DELETE /:username`) -/

/-- Remove the first record matching `p` (Mongo `findOneAndDelete`). -/
def eraseFirst (p : StoredUser → Bool) : List StoredUser → List StoredUser
  | [] => []
  | r :: rs => if p r then rs else r :: eraseFirst p rs

/-- Outcome of the delete handler. -/
inductive DeleteOutcome where
  | notFound
  | deleted
deriving DecidableEq, Repr

/-- The `DELETE /:username` handler: `findOneAndDelete({ username })`;
when no document matches, report not-found and change nothing; when one
matches, remove it from the store and run the `post-findOneAndDelete`
hook, which deletes the record key and the literal `all_users` key — the
Bloom filter is untouched. -/
def deleteRecord (st : DirState) (username : String) : DeleteOutcome × DirState :=
  match st.store.find? (fun r => r.username = username) with
  | none => (DeleteOutcome.notFound, st)
  | some doc =>
    let st1 := { st with store := eraseFirst (fun r => r.username = username) st.store }
    (DeleteOutcome.deleted,
     { st1 with cache := cacheDelete (cacheDelete st1.cache (userKey doc.username)) allUsersKey })

/-! ## Operations as a step relation -/

/-- One directory operation (reachable-backend mode). -/
inductive Op where
  | create (email password username fullName role : String)
  | update (requesterIsAdmin : Bool) (username : String) (f : UpdateFields)
  | delete (username : String)
  | findUser (username : String)
  | listQuery (q : RawQuery)
  | checkAvail (username : String)
deriving Repr

/-- The state transformer of one operation. -/
def step (st : DirState) (op : Op) : DirState :=
  match op with
  | Op.create e p u fn ro => (createRecord st e p u fn ro).2
  | Op.update a u f => (updateRecord a st u f).2
  | Op.delete u => (deleteRecord st u).2
  | Op.findUser u => (findByUsername st u).state
  | Op.listQuery q => (listPaginated st q).2.1
  | Op.checkAvail u => (checkAvailability true st u).2.1

/-- Running a sequence of operations. -/
def run (st : DirState) (ops : List Op) : DirState := ops.foldl step st

/-! ## Derived predicates and concrete scenarios -/

/-- The `total` field of a successful list response. -/
def listTotal : ListOutcome → Option Nat
  | ListOutcome.ok (CacheVal.listVal m _) => some m.total
  | _ => none

/-- Did the update handler succeed? -/
def isOkUpdate : UpdateOutcome → Bool
  | UpdateOutcome.ok _ => true
  | _ => false

/-- A serialized document carries no `password` property. -/
def noPasswordField (fields : List (String × String)) : Bool :=
  fields.all (fun p => !(p.1 = "password"))

/-- A cached value carries no `password` property anywhere. -/
def valClean : CacheVal → Bool
  | CacheVal.userVal f => noPasswordField f
  | CacheVal.listVal _ users => users.all noPasswordField

/-- Every value in the cache is password-free. -/
def cacheClean (c : Cache) : Bool :=
  c.all (fun kv => valClean kv.2)

/-- Filter-seeding invariant (spec section 3): every username with an
authoritative record has been added to the membership filter. -/
def goodState (st : DirState) : Prop :=
  ∀ r ∈ st.store, st.bloom.contains r.username = true

/-- The empty initial state. -/
def exEmpty : DirState := ⟨[], [], []⟩

/-- The default list query (`GET /all` with no query parameters). -/
def exQ : RawQuery := {}

/-- State after creating the user alice in the empty directory. -/
def exStA : DirState := step exEmpty (Op.create "a@x.com" "Pw1" "alice" "Alice A" "admin")

/-- ... then listing with the default query (populates the list cache). -/
def exStAL : DirState := step exStA (Op.listQuery exQ)

/-- ... then creating the user bob (a record mutation). -/
def exStALB : DirState := step exStAL (Op.create "b@x.com" "Pw2" "bob" "Bob B" "viewer")

/-- A store record for alice. -/
def exAlice : StoredUser := ⟨1, "a@x.com", "bcrypt:Pw1", "alice", "Alice A", "admin", 1⟩

/-- Directory state holding alice in the store and the filter, with an
empty cache (e.g. after her record cache entry expired). -/
def exStAlice : DirState := ⟨[exAlice], [], ["alice"]⟩

/-- Update payload renaming a record to `bob`. -/
def exRename : UpdateFields := { username := some "bob" }

/-- Update payload changing only the full name. -/
def exNewName : UpdateFields := { fullName := some "New Name" }

/-! ## Claim theorems -/

/-- C1: the claim fails on the code.  A record mutation deletes only the
literal `all_users` key, while list results are cached under composite
keys `all_users:<page>:<limit>:...`.  Concretely: after listing (which
caches the composite for the default query) and then creating a new
record, the pre-mutation list-cache entry is still present, and a
repeated `ListPaginated` call with the same parameters is served from
the cache with zero authoritative-store queries, reporting the stale
total 1 although the store now holds 2 records. -/
theorem c1_list_cache_survives_mutation :
    (cacheGet exStAL.cache (generateCacheKey exQ)).isSome = true ∧
    (cacheGet exStALB.cache (generateCacheKey exQ)).isSome = true ∧
    exStALB.store.length = 2 ∧
    (listPaginated exStALB exQ).2.2 = 0 ∧
    listTotal (listPaginated exStALB exQ).1 = some 1 := by decide

/-- C2: the claim fails on the code.  When the filter backend is
unreachable, `checkBloomFilter` returns FALSE (its catch branch), not
true, so the availability check takes the fast path and reports
`available = true` — with no authoritative-store query — even for a
username whose record exists in the store. -/
theorem c2_mightContain_fails_closed_on_error :
    (∀ (bloom : List String) (u : String), checkBloomFilter false bloom u = false) ∧
    checkAvailability false exStAlice "alice" = (true, exStAlice, 0) ∧
    (exStAlice.store.map (fun r => r.username)).contains "alice" = true := by
  exact ⟨fun _ _ => rfl, by decide, by decide⟩

/-- C3: the claim fails on the code.  Renaming alice to bob (from a
state where her cache entry had expired): the lookup inside the update
re-caches the old record under `user:alice`, nothing ever evicts that
key, and the post-save hook eagerly caches the updated record under
`user:bob` — so after the update completes BOTH record keys are
populated, where the claim requires both to be absent. -/
theorem c3_rename_leaves_old_and_new_cached :
    isOkUpdate (updateRecord true exStAlice "alice" exRename).1 = true ∧
    (cacheGet (updateRecord true exStAlice "alice" exRename).2.cache
      (userKey "alice")).isSome = true ∧
    (cacheGet (updateRecord true exStAlice "alice" exRename).2.cache
      (userKey "bob")).isSome = true := by decide

/-- C4: the claim fails on the code in both directions.
`generateCacheKey` concatenates the RAW query values, not the normalized
ones: `limit=200` and `limit=150` normalize to the same signature
(limit clamped to 100) yet yield different keys, while `role=all` and an
absent role have different normalized signatures (exact-match filter on
role `all` vs no role filter) yet collide on the same key. -/
theorem c4_cache_key_ignores_normalization :
    normalizeQuery { limit := some "200" } = normalizeQuery { limit := some "150" } ∧
    generateCacheKey { limit := some "200" } ≠ generateCacheKey { limit := some "150" } ∧
    normalizeQuery { role := some "all" } ≠ normalizeQuery exQ ∧
    generateCacheKey { role := some "all" } = generateCacheKey exQ := by decide

/-- C5: the claim fails on the code for non-numeric input.
`parseInt("abc")` is NaN and `Math.min(Math.max(1, NaN), 100)` is NaN
(modelled as `none`), so for `limit=abc` or `page=xyz` the values used
for the store query and reported in the metadata are NaN, not members of
`[1,100]` / `[1,∞)`.  For numeric input the clamp works, and the
sort/order defaults hold as claimed. -/
theorem c5_clamp_breaks_on_non_numeric :
    validLimit { limit := some "abc" } = none ∧
    validPage { page := some "xyz" } = none ∧
    validLimit { limit := some "200" } = some 100 ∧
    validLimit { limit := some "0" } = some 1 ∧
    validPage { page := some "-3" } = some 1 ∧
    validSort { sort := some "bogus" } = "createdAt" ∧
    validOrder { order := some "up" } = "desc" := by decide

/-! ## Supporting lemmas: what each operation does to the filter -/

theorem addToBloom_contains (b : List String) (u v : String)
    (h : b.contains v = true) : (addToBloom b u).contains v = true := by
  unfold addToBloom
  split
  · exact h
  · simp_all [List.contains_cons]

theorem addToBloom_self (b : List String) (u : String) :
    (addToBloom b u).contains u = true := by
  unfold addToBloom
  split
  · assumption
  · simp [List.contains_cons]

theorem findByUsername_bloom (st : DirState) (u : String) :
    (findByUsername st u).state.bloom = st.bloom := by
  unfold findByUsername
  split
  · rfl
  · rfl
  · split <;> rfl

theorem findByUsername_store (st : DirState) (u : String) :
    (findByUsername st u).state.store = st.store := by
  unfold findByUsername
  split
  · rfl
  · rfl
  · split <;> rfl

theorem listPaginated_bloom (st : DirState) (q : RawQuery) :
    (listPaginated st q).2.1.bloom = st.bloom := by
  simp only [listPaginated]
  split
  · rfl
  · split <;> rfl

theorem checkAvailability_bloom (b : Bool) (st : DirState) (u : String) :
    (checkAvailability b st u).2.1.bloom = st.bloom := by
  unfold checkAvailability
  split
  · exact findByUsername_bloom st u
  · rfl

theorem deleteRecord_bloom (st : DirState) (u : String) :
    (deleteRecord st u).2.bloom = st.bloom := by
  unfold deleteRecord
  split <;> rfl

theorem createRecord_bloom_mono (st : DirState) (e p u fn ro v : String)
    (h : st.bloom.contains v = true) :
    ((createRecord st e p u fn ro).2).bloom.contains v = true := by
  simp only [createRecord]
  split
  · exact h
  · split
    · rw [findByUsername_bloom]; exact h
    · simp only [postSave]
      exact addToBloom_contains _ _ _ (by rw [findByUsername_bloom]; exact h)

theorem updateRecord_bloom_mono (adm : Bool) (st : DirState) (u : String)
    (f : UpdateFields) (v : String) (h : st.bloom.contains v = true) :
    ((updateRecord adm st u f).2).bloom.contains v = true := by
  simp only [updateRecord]
  repeat' split
  all_goals
    first
      | exact h
      | (simp only [saveExisting, postSave, findByUsername_bloom]
         first
           | exact h
           | exact addToBloom_contains _ _ _ h)

theorem step_bloom_mono (st : DirState) (op : Op) (v : String)
    (h : st.bloom.contains v = true) : (step st op).bloom.contains v = true := by
  cases op with
  | create e p u fn ro => exact createRecord_bloom_mono st e p u fn ro v h
  | update a u f => exact updateRecord_bloom_mono a st u f v h
  | delete u => simp only [step]; rw [deleteRecord_bloom]; exact h
  | findUser u => simp only [step]; rw [findByUsername_bloom]; exact h
  | listQuery q => simp only [step]; rw [listPaginated_bloom]; exact h
  | checkAvail u => simp only [step]; rw [checkAvailability_bloom]; exact h

theorem run_bloom_mono (ops : List Op) (st : DirState) (v : String)
    (h : st.bloom.contains v = true) : (run st ops).bloom.contains v = true := by
  induction ops generalizing st with
  | nil => exact h
  | cons op ops ih => exact ih (step st op) (step_bloom_mono st op v h)

theorem findByUsername_isSome (st : DirState) (u : String)
    (h : ∃ r ∈ st.store, r.username = u) :
    ((findByUsername st u).doc).isSome = true := by
  unfold findByUsername
  split
  · rfl
  · rfl
  · split
    · rfl
    · rename_i hnone
      obtain ⟨r, hr, hu⟩ := h
      have := List.find?_eq_none.mp hnone r hr
      simp [hu] at this

/-! ## Claim theorems (continued) -/

/-- C6: availability checking.  Under the filter-seeding invariant (every
stored username was added to the filter — spec section 3): a negative
filter answer short-circuits to `available = true` with the state
untouched and zero authoritative-store queries, and for a username that
has an authoritative record the handler reports `available = false`. -/
theorem c6_checkAvailability_correct (st : DirState) (u : String)
    (hg : goodState st) :
    (checkBloomFilter true st.bloom u = false →
      checkAvailability true st u = (true, st, 0)) ∧
    ((∃ r ∈ st.store, r.username = u) →
      (checkAvailability true st u).1 = false) := by
  constructor
  · intro hfalse
    unfold checkAvailability
    rw [hfalse]
    simp
  · rintro ⟨r, hr, rfl⟩
    have hb : checkBloomFilter true st.bloom r.username = true := by
      simpa [checkBloomFilter] using hg r hr
    have hs := findByUsername_isSome st r.username ⟨r, hr, rfl⟩
    unfold checkAvailability
    rw [hb]
    simp only [if_true]
    cases hdoc : (findByUsername st r.username).doc with
    | none => rw [hdoc] at hs; simp at hs
    | some d => simp [hdoc]

/-- Witness for C6 at concrete inputs: in a state holding alice (store
and filter), a check for the never-added carol is answered available
from the filter alone, and a check for alice reports unavailable. -/
theorem c6_checkAvailability_correct_witness :
    goodState exStAlice ∧
    checkBloomFilter true exStAlice.bloom "carol" = false ∧
    checkAvailability true exStAlice "carol" = (true, exStAlice, 0) ∧
    (checkAvailability true exStAlice "alice").1 = false :=
  ⟨by unfold goodState; decide, by decide,
   (c6_checkAvailability_correct exStAlice "carol" (by unfold goodState; decide)).1 (by decide),
   (c6_checkAvailability_correct exStAlice "alice" (by unfold goodState; decide)).2
     ⟨exAlice, by decide, rfl⟩⟩

/-- C7: the membership filter is append-only.  Adding a username makes
`MightContain` (the reachable-backend `checkBloomFilter`) true
immediately, and it stays true after ANY sequence of directory
operations — creates, updates, deletes (which touch only store and
cache), finds, lists and availability checks — since no operation ever
removes a filter entry. -/
theorem c7_filter_append_only (b : List String) (u : String) (c : Cache)
    (s : List StoredUser) (ops : List Op) :
    checkBloomFilter true (addToBloom b u) u = true ∧
    checkBloomFilter true (run ⟨s, c, addToBloom b u⟩ ops).bloom u = true := by
  constructor
  · simpa [checkBloomFilter] using addToBloom_self b u
  · simpa [checkBloomFilter] using
      run_bloom_mono ops ⟨s, c, addToBloom b u⟩ u (addToBloom_self b u)

/-- C10: deleting a username that has no authoritative record reports
not-found and returns the state entirely unchanged: no store removal, no
cache eviction or insertion, no filter change. -/
theorem c10_delete_missing_noop (st : DirState) (u : String)
    (h : ∀ r ∈ st.store, ¬(r.username = u)) :
    deleteRecord st u = (DeleteOutcome.notFound, st) := by
  unfold deleteRecord
  have hnone : st.store.find? (fun r => r.username = u) = none := by
    rw [List.find?_eq_none]
    intro x hx
    simpa using h x hx
  rw [hnone]

/-- Witness for C10: deleting carol in the alice-only state. -/
theorem c10_delete_missing_noop_witness :
    (∀ r ∈ exStAlice.store, ¬(r.username = "carol")) ∧
    deleteRecord exStAlice "carol" = (DeleteOutcome.notFound, exStAlice) :=
  ⟨by decide, c10_delete_missing_noop exStAlice "carol" (by decide)⟩

/-! ## Supporting lemmas: cache reads after writes -/

theorem cacheGet_set_self (c : Cache) (k : String) (v : CacheVal) :
    cacheGet (cacheSet c k v) k = some v := by
  simp [cacheGet, cacheSet, List.find?]

theorem cacheGet_delete_ne (c : Cache) (k k2 : String) (h : ¬(k = k2)) :
    cacheGet (cacheDelete c k2) k = cacheGet c k := by
  induction c with
  | nil => rfl
  | cons kv c ih =>
    by_cases h1 : kv.1 = k2
    · simp [cacheDelete, List.filter_cons, h1] at ih ⊢
      rw [ih]
      have h2 : ¬(kv.1 = k) := by rw [h1]; intro hx; exact h hx.symm
      simp [cacheGet, List.find?, h2]
    · by_cases h2 : kv.1 = k
      · simp [cacheDelete, List.filter_cons, h1, cacheGet, List.find?, h2, h]
      · simp [cacheDelete, List.filter_cons, h1, cacheGet, List.find?, h2] at ih ⊢
        exact ih

theorem userKey_ne_allUsers (u : String) : ¬(userKey u = allUsersKey) := by
  intro h
  have h2 : (userKey u).data = allUsersKey.data := by rw [h]
  simp [userKey, allUsersKey] at h2

theorem fromCached_toJSON_fullName (u : StoredUser) :
    (fromCached (toJSONFields u)).fullName = u.fullName := rfl

theorem fromCached_toJSON_username (u : StoredUser) :
    (fromCached (toJSONFields u)).username = u.username := rfl

theorem findByUsername_after_postSave (st : DirState) (d : StoredUser) :
    (findByUsername (postSave st d) d.username).doc
      = some (fromCached (toJSONFields d)) := by
  have hget : cacheGet (postSave st d).cache (userKey d.username)
      = some (CacheVal.userVal (toJSONFields d)) := by
    simp only [postSave]
    rw [cacheGet_delete_ne _ _ _ (userKey_ne_allUsers d.username)]
    exact cacheGet_set_self _ _ _
  unfold findByUsername
  rw [hget]

theorem findByUsername_after_saveExisting (st : DirState) (d : StoredUser) :
    (findByUsername (saveExisting st d) d.username).doc
      = some (fromCached (toJSONFields d)) :=
  findByUsername_after_postSave _ _

/-! ## Supporting lemmas: the shape of a successful update -/

theorem findByUsername_not_fromCache_username (st : DirState) (u : String)
    (user : StoredUser) (hd : (findByUsername st u).doc = some user)
    (hc : (findByUsername st u).fromCache = false) : user.username = u := by
  revert hd hc
  unfold findByUsername
  split
  · intro hd hc; simp at hc
  · intro hd hc; simp at hc
  · split
    · rename_i doc hfind
      intro hd hc
      cases hd
      have := List.find?_some hfind
      simpa using this
    · intro hd hc
      cases hd

theorem updateRecord_ok_shape (adm : Bool) (st : DirState) (u : String)
    (f : UpdateFields) (hok : isOkUpdate (updateRecord adm st u f).1 = true) :
    ∃ user st2, (findByUsername st u).doc = some user ∧
      (findByUsername st u).fromCache = false ∧
      (updateRecord adm st u f).2 = saveExisting st2 (applyUpdates user f) := by
  rcases hU : updateRecord adm st u f with ⟨out, stf⟩
  rw [hU] at hok
  simp only [updateRecord] at hU
  repeat' split at hU
  all_goals cases hU
  all_goals simp only [isOkUpdate] at hok
  all_goals
    first
      | exact absurd hok Bool.false_ne_true
      | exact ⟨_, _, by assumption, by simp_all, rfl⟩

/-! ## Claim theorems (continued) -/

/-- C8: an update that does not change the username (here: changing the
full name) leaves the record cache holding the freshly saved
serialization under the record key, so a subsequent `findByUsername` for
that username returns the updated field values rather than the
pre-update copy. -/
theorem c8_find_after_update_returns_new_value (adm : Bool) (st : DirState)
    (u newName : String) (f : UpdateFields) (hu : f.username = none)
    (hn : f.fullName = some newName)
    (hok : isOkUpdate (updateRecord adm st u f).1 = true) :
    ∃ d, (findByUsername (updateRecord adm st u f).2 u).doc = some d ∧
      d.fullName = newName := by
  obtain ⟨user, st2, hdoc, hfc, hst⟩ := updateRecord_ok_shape adm st u f hok
  have husr : user.username = u :=
    findByUsername_not_fromCache_username st u user hdoc hfc
  have hupdname : (applyUpdates user f).username = u := by
    simp [applyUpdates, hu, husr]
  rw [hst, ← hupdname]
  exact ⟨_, findByUsername_after_saveExisting st2 (applyUpdates user f),
    by rw [fromCached_toJSON_fullName]; simp [applyUpdates, hn]⟩

/-- Witness for C8: updating the full name of alice (resolved from the
store) and reading her record back. -/
theorem c8_find_after_update_returns_new_value_witness :
    exNewName.username = none ∧ exNewName.fullName = some "New Name" ∧
    isOkUpdate (updateRecord true exStAlice "alice" exNewName).1 = true ∧
    ∃ d, (findByUsername (updateRecord true exStAlice "alice" exNewName).2 "alice").doc
        = some d ∧ d.fullName = "New Name" :=
  ⟨rfl, rfl, by decide,
   c8_find_after_update_returns_new_value true exStAlice "alice" "New Name"
     exNewName rfl rfl (by decide)⟩

/-! ## Supporting lemmas: serializations are password-free -/

theorem noPasswordField_filter (l : List (String × String)) :
    noPasswordField (l.filter (fun p => !(p.1 = "password"))) = true := by
  simp only [noPasswordField, List.all_eq_true]
  intro p hp
  exact (List.mem_filter.mp hp).2

theorem noPasswordField_toJSON (u : StoredUser) :
    noPasswordField (toJSONFields u) = true :=
  noPasswordField_filter (toObjectFields u)

theorem valClean_userJSON (u : StoredUser) :
    valClean (CacheVal.userVal (toJSONFields u)) = true :=
  noPasswordField_toJSON u

theorem valClean_listJSON (m : ListMetadata) (users : List StoredUser) :
    valClean (CacheVal.listVal m (users.map toJSONFields)) = true := by
  simp only [valClean, List.all_eq_true]
  intro fs hfs
  obtain ⟨u, _, rfl⟩ := List.mem_map.mp hfs
  exact noPasswordField_toJSON u

theorem cacheClean_set (c : Cache) (k : String) (v : CacheVal)
    (hc : cacheClean c = true) (hv : valClean v = true) :
    cacheClean (cacheSet c k v) = true := by
  simp only [cacheClean, List.all_eq_true] at hc ⊢
  intro kv hkv
  rcases List.mem_cons.mp hkv with h | h
  · rw [h]; exact hv
  · exact hc kv (List.mem_of_mem_filter h)

theorem cacheClean_delete (c : Cache) (k : String)
    (hc : cacheClean c = true) : cacheClean (cacheDelete c k) = true := by
  simp only [cacheClean, List.all_eq_true] at hc ⊢
  intro kv hkv
  exact hc kv (List.mem_of_mem_filter hkv)

theorem postSave_cacheClean (st : DirState) (d : StoredUser)
    (h : cacheClean st.cache = true) : cacheClean (postSave st d).cache = true :=
  cacheClean_delete _ _ (cacheClean_set _ _ _ h (valClean_userJSON d))

theorem saveExisting_cacheClean (st : DirState) (d : StoredUser)
    (h : cacheClean st.cache = true) : cacheClean (saveExisting st d).cache = true :=
  postSave_cacheClean _ _ h

theorem findByUsername_cacheClean (st : DirState) (u : String)
    (h : cacheClean st.cache = true) :
    cacheClean (findByUsername st u).state.cache = true := by
  unfold findByUsername
  split
  · exact h
  · exact h
  · split
    · exact cacheClean_set _ _ _ h (valClean_userJSON _)
    · exact h

theorem createRecord_cacheClean (st : DirState) (e p u fn ro : String)
    (h : cacheClean st.cache = true) :
    cacheClean ((createRecord st e p u fn ro).2).cache = true := by
  simp only [createRecord]
  split
  · exact h
  · split
    · exact findByUsername_cacheClean _ _ h
    · exact postSave_cacheClean _ _ (findByUsername_cacheClean _ _ h)

theorem updateRecord_cacheClean (adm : Bool) (st : DirState) (u : String)
    (f : UpdateFields) (h : cacheClean st.cache = true) :
    cacheClean ((updateRecord adm st u f).2).cache = true := by
  simp only [updateRecord]
  repeat' split
  all_goals
    first
      | exact h
      | exact findByUsername_cacheClean _ _ h
      | exact findByUsername_cacheClean _ _ (findByUsername_cacheClean _ _ h)
      | exact saveExisting_cacheClean _ _ (findByUsername_cacheClean _ _ h)
      | exact saveExisting_cacheClean _ _
          (findByUsername_cacheClean _ _ (findByUsername_cacheClean _ _ h))

theorem deleteRecord_cacheClean (st : DirState) (u : String)
    (h : cacheClean st.cache = true) :
    cacheClean ((deleteRecord st u).2).cache = true := by
  unfold deleteRecord
  split
  · exact h
  · exact cacheClean_delete _ _ (cacheClean_delete _ _ h)

theorem listPaginated_cacheClean (st : DirState) (q : RawQuery)
    (h : cacheClean st.cache = true) :
    cacheClean ((listPaginated st q).2.1).cache = true := by
  simp only [listPaginated]
  split
  · exact h
  · split
    · exact cacheClean_set _ _ _ h (valClean_listJSON _ _)
    · exact h

theorem checkAvailability_cacheClean (b : Bool) (st : DirState) (u : String)
    (h : cacheClean st.cache = true) :
    cacheClean ((checkAvailability b st u).2.1).cache = true := by
  unfold checkAvailability
  split
  · exact findByUsername_cacheClean _ _ h
  · exact h

theorem step_cacheClean (st : DirState) (op : Op)
    (h : cacheClean st.cache = true) : cacheClean (step st op).cache = true := by
  cases op with
  | create e p u fn ro => exact createRecord_cacheClean st e p u fn ro h
  | update a u f => exact updateRecord_cacheClean a st u f h
  | delete u => exact deleteRecord_cacheClean st u h
  | findUser u => exact findByUsername_cacheClean st u h
  | listQuery q => exact listPaginated_cacheClean st q h
  | checkAvail u => exact checkAvailability_cacheClean true st u h

/-- C9: password material never reaches a serialization.  Every record
serialization (`toJSON`, used by every `res.json` of a document and by
every cache write) omits the `password` field; a password-free cache
stays password-free across every operation (creates, updates, deletes,
reads, lists, availability checks); and the update response — the one
route that re-serializes explicitly — is password-free as well. -/
theorem c9_password_never_serialized :
    (∀ u : StoredUser, noPasswordField (toJSONFields u) = true) ∧
    (∀ (st : DirState) (op : Op), cacheClean st.cache = true →
       cacheClean (step st op).cache = true) ∧
    (∀ (adm : Bool) (st : DirState) (u : String) (f : UpdateFields)
       (resp : List (String × String)),
       (updateRecord adm st u f).1 = UpdateOutcome.ok resp →
       noPasswordField resp = true) := by
  refine ⟨noPasswordField_toJSON, step_cacheClean, ?_⟩
  intro adm st u f resp h
  rcases hU : updateRecord adm st u f with ⟨out, stf⟩
  rw [hU] at h
  simp only [updateRecord] at hU
  repeat' split at hU
  all_goals cases hU
  all_goals cases h
  all_goals exact noPasswordField_filter _

/-- Witness for C9: the serialization of alice, the cache after a create
mutation, and a concrete successful update response are password-free. -/
theorem c9_password_never_serialized_witness :
    cacheClean exStAL.cache = true ∧
    cacheClean (step exStAL (Op.create "b@x.com" "Pw2" "bob" "Bob B" "viewer")).cache = true ∧
    (updateRecord true exStAlice "alice" exNewName).1
        = UpdateOutcome.ok ((toJSONFields (applyUpdates exAlice exNewName)).filter
            (fun p => !(p.1 = "password"))) ∧
    noPasswordField ((toJSONFields (applyUpdates exAlice exNewName)).filter
            (fun p => !(p.1 = "password"))) = true ∧
    noPasswordField (toJSONFields exAlice) = true :=
  ⟨by decide,
   c9_password_never_serialized.2.1 exStAL _ (by decide),
   by decide,
   c9_password_never_serialized.2.2 true exStAlice "alice" exNewName _ (by decide),
   c9_password_never_serialized.1 exAlice⟩

/-! ## Supporting lemmas: the filter-seeding invariant is preserved -/

theorem goodState_of_eq {st st2 : DirState} (hs : st2.store = st.store)
    (hb : st2.bloom = st.bloom) (h : goodState st) : goodState st2 := by
  intro r hr
  rw [hb]
  exact h r (hs ▸ hr)

theorem listPaginated_store (st : DirState) (q : RawQuery) :
    (listPaginated st q).2.1.store = st.store := by
  simp only [listPaginated]
  split
  · rfl
  · split <;> rfl

theorem checkAvailability_store (b : Bool) (st : DirState) (u : String) :
    (checkAvailability b st u).2.1.store = st.store := by
  unfold checkAvailability
  split
  · exact findByUsername_store st u
  · rfl

theorem goodState_find (st : DirState) (u : String) (h : goodState st) :
    goodState (findByUsername st u).state :=
  goodState_of_eq (findByUsername_store st u) (findByUsername_bloom st u) h

theorem goodState_find2 (st : DirState) (u v : String) (h : goodState st) :
    goodState (findByUsername (findByUsername st u).state v).state :=
  goodState_find _ _ (goodState_find _ _ h)

theorem goodState_postSave (st : DirState) (d : StoredUser)
    (h : ∀ r ∈ st.store, st.bloom.contains r.username = true ∨ r.username = d.username) :
    goodState (postSave st d) := by
  intro r hr
  rcases h r hr with h1 | h1
  · exact addToBloom_contains _ _ _ h1
  · rw [h1]
    exact addToBloom_self _ _

theorem goodState_saveExisting (st : DirState) (d : StoredUser)
    (h : goodState st) : goodState (saveExisting st d) := by
  apply goodState_postSave
  intro r hr
  obtain ⟨orig, horig, heq⟩ := List.mem_map.mp hr
  by_cases hid : orig.id = d.id
  · right
    rw [← heq]
    simp [hid]
  · left
    rw [← heq]
    simp only [hid, if_false]
    exact h orig horig

theorem eraseFirst_subset (p : StoredUser → Bool) (l : List StoredUser) :
    ∀ r ∈ eraseFirst p l, r ∈ l := by
  induction l with
  | nil => intro r hr; simp [eraseFirst] at hr
  | cons x xs ih =>
    intro r hr
    simp only [eraseFirst] at hr
    split at hr
    · exact List.mem_cons_of_mem _ hr
    · rcases List.mem_cons.mp hr with h1 | h1
      · rw [h1]; exact List.mem_cons_self _ _
      · exact List.mem_cons_of_mem _ (ih r h1)

theorem goodState_deleteRecord (st : DirState) (u : String) (h : goodState st) :
    goodState ((deleteRecord st u).2) := by
  unfold deleteRecord
  split
  · exact h
  · intro r hr
    exact h r (eraseFirst_subset _ _ r hr)

theorem goodState_createRecord (st : DirState) (e p u fn ro : String)
    (h : goodState st) : goodState ((createRecord st e p u fn ro).2) := by
  simp only [createRecord]
  split
  · exact h
  · split
    · exact goodState_find _ _ h
    · apply goodState_postSave
      intro r hr
      rcases List.mem_append.mp hr with h1 | h1
      · exact Or.inl (goodState_find st u h r h1)
      · right
        simp only [List.mem_singleton] at h1
        rw [h1]

theorem goodState_updateRecord (adm : Bool) (st : DirState) (u : String)
    (f : UpdateFields) (h : goodState st) :
    goodState ((updateRecord adm st u f).2) := by
  simp only [updateRecord]
  repeat' split
  all_goals
    first
      | exact h
      | exact goodState_find _ _ h
      | exact goodState_find2 _ _ _ h
      | exact goodState_saveExisting _ _ (goodState_find _ _ h)
      | exact goodState_saveExisting _ _ (goodState_find2 _ _ _ h)

theorem goodState_step (st : DirState) (op : Op) (h : goodState st) :
    goodState (step st op) := by
  cases op with
  | create e p u fn ro => exact goodState_createRecord st e p u fn ro h
  | update a u f => exact goodState_updateRecord a st u f h
  | delete u => exact goodState_deleteRecord st u h
  | findUser u => exact goodState_find st u h
  | listQuery q =>
      exact goodState_of_eq (listPaginated_store st q) (listPaginated_bloom st q) h
  | checkAvail u =>
      exact goodState_of_eq (checkAvailability_store true st u)
        (checkAvailability_bloom true st u) h

theorem goodState_run (ops : List Op) (st : DirState) (h : goodState st) :
    goodState (run st ops) := by
  induction ops generalizing st with
  | nil => exact h
  | cons op ops ih => exact ih (step st op) (goodState_step st op h)

end UserDirectory
